import Mathlib

/-!
# Verification of the telegram-monitor dispatch & execution engine

Shallow embedding of the monitor dispatch pipeline of the repository
(`src/core/monitor_engine.py`, `src/monitors/base_monitor.py`,
`src/monitors/keyword_monitor.py`, `src/models/config.py`,
`src/models/message.py`) together with proofs about the spec's claims.

Modelling conventions:
* Python `str` values are `String`; message text in the keyword matcher is a
  `List Char` with an ASCII `Char.toLower` standing for `str.lower()`.
* Python `int` is `Int`; nullable fields are `Option _`.
* Python truthiness of a string/int/option is made explicit
  (`truthyStr`, `truthyInt`, ...).
* Code that can raise is modelled in `Except Unit`; the engine's
  `try/except` blocks become explicit `match`es mapping errors to the
  `error` result, exactly as `BaseMonitor.process_message` does.
* Python `set` values that are only used for membership/union are `Finset`.
* Variant-specific behaviour (`_match_condition`,
  `get_dynamic_reply_content`) is a per-monitor parameter; the keyword
  variant's concrete predicate is embedded separately.
* Fields of the source dataclasses that none of the embedded functions read
  (e.g. `match_bots`, `download_folder`, media descriptors, timestamps) are
  omitted from the structures.
-/

namespace TgMonitor

/-- `MonitorResult` of `src/monitors/base_monitor.py`. -/
inductive MonitorResult where
  | noMatch
  | matched
  | blocked
  | limitReached
  | error
  deriving DecidableEq, Repr

/-- `ReplyMode` of `src/models/config.py`. -/
inductive ReplyMode where
  | reply
  | send
  deriving DecidableEq, Repr

/-- `ReplyContentType` of `src/models/config.py`. -/
inductive ReplyContentType where
  | custom
  | ai
  deriving DecidableEq, Repr

/-- `MatchType` of `src/models/config.py`. -/
inductive MatchType where
  | exact
  | partial_
  | regex
  deriving DecidableEq, Repr

/-- `MessageSender` of `src/models/message.py` (fields the engine reads). -/
structure MessageSender where
  id : Int
  username : Option String
  firstName : Option String
  lastName : Option String
  isBot : Bool
  deriving DecidableEq, Repr

/-- `TelegramMessage` of `src/models/message.py` (fields the engine reads). -/
structure TelegramMessage where
  messageId : Int
  chatId : Int
  sender : MessageSender
  text : List Char
  forwardFromChannelId : Option Int
  deriving DecidableEq, Repr

/-- `MessageEvent` of `src/models/message.py`. -/
structure MessageEvent where
  accountId : String
  message : TelegramMessage
  deriving DecidableEq, Repr

/-- `MessageEvent.unique_id`: the string
`f"{account_id}_{chat_id}_{message_id}"`. -/
def MessageEvent.uniqueId (e : MessageEvent) : String :=
  e.accountId ++ "_" ++ toString e.message.chatId ++ "_" ++ toString e.message.messageId

/-- `Account` of `src/models/account.py` (fields the engine reads). -/
structure Account where
  accountId : String
  ownUserId : Option Int
  monitorActive : Bool
  deriving DecidableEq, Repr

/-- Python truthiness of an optional string (`None` and `""` are falsy). -/
def truthyStr : Option String → Bool
  | none => false
  | some s => s ≠ ""

/-- Python truthiness of an optional int (`None` and `0` are falsy). -/
def truthyInt : Option Int → Bool
  | none => false
  | some n => n ≠ 0

/-- `str.lower()` on the ASCII fragment: `Char.toLower` per character. -/
def pyLower (s : List Char) : List Char := s.map Char.toLower

/-- `str.strip()`: drop whitespace from both ends. -/
def pyStrip (s : List Char) : List Char :=
  ((s.dropWhile Char.isWhitespace).reverse.dropWhile Char.isWhitespace).reverse

/-- `str.strip()` on a `String` (executable model of Python's strip). -/
def pyStripStr (s : String) : String := ⟨pyStrip s.data⟩

/-- `BaseMonitorConfig` of `src/models/config.py`, with the reply fields of
the reply-capable variants (`KeywordConfig`, `AllMessagesConfig`,
`AIMonitorConfig`) folded in.  A variant without a `reply_enabled`
attribute behaves exactly like `replyEnabled = false` in every embedded
function (`hasattr` guards), and the `getattr(..., default)` reads of the
other reply fields coincide with the dataclass defaults used here. -/
structure MonitorConfig where
  chats : List Int := []
  users : List String := []
  userOption : Option String := none
  blockedUsers : List String := []
  blockedChannels : List Int := []
  blockedBots : List Int := []
  botIds : List Int := []
  channelIds : List Int := []
  groupIds : List Int := []
  emailNotify : Bool := false
  autoForward : Bool := false
  forwardTargets : List Int := []
  logFile : Option String := none
  maxExecutions : Option Int := none
  executionCount : Int := 0
  enhancedForward : Bool := false
  priority : Int := 50
  active : Bool := true
  executionMode : String := "merge"
  replyEnabled : Bool := false
  replyTexts : List String := []
  replyDelayMin : Rat := 0
  replyDelayMax : Rat := 0
  replyMode : ReplyMode := .reply
  replyContentType : ReplyContentType := .custom
  aiReplyPrompt : String := ""
  deriving DecidableEq, Repr

/-- `BaseMonitorConfig.is_execution_limit_reached`. -/
def MonitorConfig.isExecutionLimitReached (cfg : MonitorConfig) : Bool :=
  match cfg.maxExecutions with
  | none => false
  | some m => cfg.executionCount ≥ m

/-- The quota bookkeeping performed for each matched monitor at the end of
`MonitorEngine._execute_merged_actions` (lines 684-699):
`increment_execution()`, then if `is_execution_limit_reached()` the monitor
is paused (`active = False`) and the counter reset. -/
def incrementAndMaybePause (cfg : MonitorConfig) : MonitorConfig :=
  let cfg2 := { cfg with executionCount := cfg.executionCount + 1 }
  if cfg2.isExecutionLimitReached then
    { cfg2 with active := false, executionCount := 0 }
  else cfg2

/-- `BaseMonitor._match_user_filter`.  `users` holds the `str()` images of
the configured entries.  When `user_option == '2'` and the sender's
`username` is `None`, the source calls `.lower()` on `None` and raises,
which the top of `process_message` catches: modelled as `Except.error`. -/
def matchUserFilter (cfg : MonitorConfig) (sender : MessageSender) : Except Unit Bool :=
  if cfg.users ≠ [] then
    if cfg.userOption = some "1" then
      let senderIdStr := toString sender.id
      let shortId := if senderIdStr.startsWith "-100" then senderIdStr.drop 4 else senderIdStr
      if ¬ (senderIdStr ∈ cfg.users ∨ shortId ∈ cfg.users) then .ok false else .ok true
    else if cfg.userOption = some "2" then
      match sender.username with
      | none => .error ()
      | some u =>
        if u.toLower ∉ cfg.users.map (fun x => x.toLower) then .ok false else .ok true
    else if cfg.userOption = some "3" then
      let senderFull := pyStripStr ((sender.firstName.getD "") ++ " " ++ (sender.lastName.getD ""))
      if senderFull ∉ cfg.users then .ok false else .ok true
    else .ok true
  else .ok true

/-- `BaseMonitor._match_chat_filter` (the precise-ID allow-list).  Note: the
source reads `getattr(sender, 'bot', False)` but `MessageSender` only has
an `is_bot` field, so `sender_is_bot` is always `False` for engine-built
senders; the model fixes it to `false` accordingly. -/
def matchChatFilter (cfg : MonitorConfig) (msg : TelegramMessage) : Bool :=
  let hasSpecificIds := ¬ (cfg.botIds = [] ∧ cfg.channelIds = [] ∧ cfg.groupIds = [])
  if hasSpecificIds then
    let senderId := msg.sender.id
    let senderIsBot := false
    let botMatched := cfg.botIds ≠ [] ∧ senderIsBot = true ∧ senderId ∈ cfg.botIds
    let channelMatched := cfg.channelIds.any (fun configId =>
      msg.chatId = configId ∨
      (configId < 0 ∧ (toString configId).startsWith "-100" ∧
        senderId = (configId.natAbs : Int) - 1000000000000) ∨
      configId = -1000000000000 - (senderId.natAbs : Int))
    let groupMatched := cfg.groupIds ≠ [] ∧
      cfg.groupIds.any (fun g => senderId = g ∨ msg.chatId = g)
    decide (botMatched ∨ channelMatched = true ∨ groupMatched)
  else true

/-- `BaseMonitor._should_process`: sender-is-self, chat scope, user filter,
precise-ID filter, in the source's order. -/
def shouldProcess (cfg : MonitorConfig) (msg : TelegramMessage) (acct : Account) :
    Except Unit Bool :=
  if acct.ownUserId = some msg.sender.id then .ok false
  else if cfg.chats ≠ [] ∧ msg.chatId ∉ cfg.chats then .ok false
  else
    match matchUserFilter cfg msg.sender with
    | .error e => .error e
    | .ok false => .ok false
    | .ok true => .ok (matchChatFilter cfg msg)

/-- `BaseMonitor._is_blocked`: user, bot, channel and forwarded-from-channel
block lists.  `blocked_users` holds strings compared against
`str(sender.id)`; the forwarded-from check uses Python truthiness of the
optional channel id. -/
def isBlocked (cfg : MonitorConfig) (msg : TelegramMessage) : Bool :=
  if toString msg.sender.id ∈ cfg.blockedUsers then true
  else if msg.sender.isBot = true ∧ msg.sender.id ∈ cfg.blockedBots then true
  else if msg.chatId ∈ cfg.blockedChannels then true
  else if truthyInt msg.forwardFromChannelId = true ∧
      msg.forwardFromChannelId.getD 0 ∈ cfg.blockedChannels then true
  else false

/-- `BaseMonitor.process_message`: the evaluation template shared by every
monitor variant.  `cond` is the outcome of the variant-specific
`_match_condition` on this message (`Except.error` when it raises); the
surrounding `try/except` turns any raise into the `error` result. -/
def processMessage (cfg : MonitorConfig) (cond : Except Unit Bool)
    (ev : MessageEvent) (acct : Account) : MonitorResult :=
  if cfg.active = false then .noMatch
  else
    match shouldProcess cfg ev.message acct with
    | .error _ => .error
    | .ok false => .noMatch
    | .ok true =>
      if isBlocked cfg ev.message then .blocked
      else if cfg.isExecutionLimitReached then .limitReached
      else
        match cond with
        | .error _ => .error
        | .ok false => .noMatch
        | .ok true => .matched

/-! ## Keyword monitor (`src/monitors/keyword_monitor.py`) -/

/-- `TelegramMessage.text_lower` (`src/models/message.py` lines 99-101):
`self.text.lower().strip()`. -/
def textLower (text : List Char) : List Char := pyStrip (pyLower text)

/-- The parts of `KeywordConfig` the match predicate reads. -/
structure KeywordConfig where
  keyword : List Char
  matchType : MatchType
  deriving DecidableEq, Repr

/-- The regex engine, abstracted: `compile` returns the search predicate of
a pattern, or `none` when `re.compile`/`re.error` fails.  Compilation is a
pure function of the pattern, as in CPython. -/
structure RegexOracle where
  compile : List Char → Option (List Char → Bool)

/-- `KeywordMonitor._match_condition` (lines 30-68).  Empty text never
matches (`if not message.text`).  Exact and partial kinds compare against
`text_lower` (lower-cased *and stripped*) while the keyword is only
lower-cased (`self._lower_keyword = config.keyword.lower()`); the regex
kind searches the original text with the compiled pattern, and a
compilation failure (at construction and again at match time, the pattern
being the same) yields `False` instead of raising. -/
def keywordMatchCondition (oracle : RegexOracle) (kcfg : KeywordConfig)
    (msgText : List Char) : Bool :=
  if msgText = [] then false
  else
    let text := textLower msgText
    match kcfg.matchType with
    | .exact => decide (text = pyLower kcfg.keyword)
    | .partial_ => decide (pyLower kcfg.keyword <:+: text)
    | .regex =>
      match oracle.compile kcfg.keyword with
      | some search => search msgText
      | none => false

/-- The keyword predicate as claim C9 words it: "exact kind matches iff the
lower-cased message text equals the lower-cased keyword, partial kind
matches iff the lower-cased keyword is a substring of the lower-cased
text, regex kind matches iff the pattern search succeeds on the text". -/
def claimedKeywordMatch (oracle : RegexOracle) (kcfg : KeywordConfig)
    (msgText : List Char) : Bool :=
  match kcfg.matchType with
  | .exact => decide (pyLower msgText = pyLower kcfg.keyword)
  | .partial_ => decide (pyLower kcfg.keyword <:+: pyLower msgText)
  | .regex =>
    match oracle.compile kcfg.keyword with
    | some search => search msgText
    | none => false

/-- The keyword predicate as amended: non-empty text only, and the message
text is additionally whitespace-stripped (the keyword is lower-cased but
not stripped). -/
def amendedKeywordMatch (oracle : RegexOracle) (kcfg : KeywordConfig)
    (msgText : List Char) : Bool :=
  decide (msgText ≠ []) &&
    match kcfg.matchType with
    | .exact => decide (pyStrip (pyLower msgText) = pyLower kcfg.keyword)
    | .partial_ => decide (pyLower kcfg.keyword <:+: pyStrip (pyLower msgText))
    | .regex =>
      match oracle.compile kcfg.keyword with
      | some search => search msgText
      | none => false

/-! ## Dispatch engine (`src/core/monitor_engine.py`) -/

/-- One monitor as the dispatch loop sees it: its config, the outcome of
its variant-specific `_match_condition` on a given message (`Except.error`
when that method raises), and — when the variant defines
`get_dynamic_reply_content` (the keyword monitor) — that method's return
value at merge time (`none` when the method is absent). -/
structure Monitor where
  config : MonitorConfig
  matchCond : MessageEvent → Except Unit Bool
  dynamicReply : Option (List String)

/-- Evaluation of one monitor on one message:
`monitor.process_message(message_event, account)`. -/
def evalMonitor (ev : MessageEvent) (acct : Account) (m : Monitor) : MonitorResult :=
  processMessage m.config (m.matchCond ev) ev acct

/-- The `merge_actions`/`actions` dict of
`_process_monitors_with_individual_modes` and friends. -/
structure ActionRecord where
  emailNotify : Bool
  forwardTargets : Finset Int
  enhancedForward : Bool
  logFiles : Finset String
  replyEnabled : Bool
  replyTexts : List String
  replyDelayMin : Rat
  replyDelayMax : Rat
  replyMode : ReplyMode
  replyContentType : ReplyContentType
  aiReplyPrompt : String
  deriving DecidableEq

/-- The initial `merge_actions` dict (lines 394-407). -/
def emptyMergeActions : ActionRecord :=
  { emailNotify := false
    forwardTargets := ∅
    enhancedForward := false
    logFiles := ∅
    replyEnabled := false
    replyTexts := []
    replyDelayMin := 0
    replyDelayMax := 0
    replyMode := .reply
    replyContentType := .custom
    aiReplyPrompt := "" }

/-- `_merge_monitor_actions`, email block (lines 460-461). -/
def mergeEmailBlock (m : Monitor) (acts : ActionRecord) : ActionRecord :=
  if m.config.emailNotify then { acts with emailNotify := true } else acts

/-- `_merge_monitor_actions`, forward block (lines 463-466): targets are
accumulated only when `auto_forward` is on and the target list is
non-empty (Python truthiness). -/
def mergeForwardBlock (m : Monitor) (acts : ActionRecord) : ActionRecord :=
  if m.config.autoForward = true ∧ m.config.forwardTargets ≠ [] then
    let acts1 := { acts with
      forwardTargets := acts.forwardTargets ∪ m.config.forwardTargets.toFinset }
    if m.config.enhancedForward then { acts1 with enhancedForward := true } else acts1
  else acts

/-- `_merge_monitor_actions`, log block (lines 468-469). -/
def mergeLogBlock (m : Monitor) (acts : ActionRecord) : ActionRecord :=
  if truthyStr m.config.logFile then
    { acts with logFiles := insert (m.config.logFile.getD "") acts.logFiles }
  else acts

/-- `_merge_monitor_actions`, reply block (lines 471-502): runs only when
no previously merged monitor has already enabled the reply and this
monitor requests one; it then fixes content type, AI prompt, text pool
(dynamic content first, falling back to the config pool, or switching to
AI content when both are empty and an AI prompt exists), delay bounds and
reply mode from this monitor. -/
def mergeReplyBlock (m : Monitor) (acts : ActionRecord) : ActionRecord :=
  if acts.replyEnabled = false ∧ m.config.replyEnabled = true then
    let acts1 := { acts with
      replyEnabled := true
      replyContentType := m.config.replyContentType
      aiReplyPrompt := m.config.aiReplyPrompt }
    let acts2 :=
      match m.dynamicReply with
      | some dyn =>
        if dyn ≠ [] then { acts1 with replyTexts := dyn }
        else if m.config.replyTexts = [] ∧ m.config.aiReplyPrompt ≠ "" then
          { acts1 with replyContentType := .ai, aiReplyPrompt := m.config.aiReplyPrompt }
        else { acts1 with replyTexts := m.config.replyTexts }
      | none => { acts1 with replyTexts := m.config.replyTexts }
    { acts2 with
      replyDelayMin := m.config.replyDelayMin
      replyDelayMax := m.config.replyDelayMax
      replyMode := m.config.replyMode }
  else acts

/-- `MonitorEngine._merge_monitor_actions` (lines 457-502): fold one more
matched merge-mode monitor into the pending combined record; the four
blocks run in source order. -/
def mergeMonitorActions (m : Monitor) (acts : ActionRecord) : ActionRecord :=
  mergeReplyBlock m (mergeLogBlock m (mergeForwardBlock m (mergeEmailBlock m acts)))

/-- `MonitorEngine._collect_monitor_actions` (lines 504-548): the action
record of a single monitor executed alone (`first_match` / `all` modes). -/
def collectMonitorActions (m : Monitor) : ActionRecord :=
  let base : ActionRecord :=
    { emailNotify := m.config.emailNotify
      forwardTargets := if m.config.autoForward then m.config.forwardTargets.toFinset else ∅
      enhancedForward := if m.config.autoForward then m.config.enhancedForward else false
      logFiles := if truthyStr m.config.logFile then {m.config.logFile.getD ""} else ∅
      replyEnabled := false
      replyTexts := []
      replyDelayMin := 0
      replyDelayMax := 0
      replyMode := .reply
      replyContentType := .custom
      aiReplyPrompt := "" }
  if m.config.replyEnabled then
    let acts1 := { base with
      replyEnabled := true
      replyContentType := m.config.replyContentType
      aiReplyPrompt := m.config.aiReplyPrompt }
    let acts2 :=
      match m.dynamicReply with
      | some dyn =>
        if dyn ≠ [] then { acts1 with replyTexts := dyn }
        else { acts1 with replyTexts := m.config.replyTexts }
      | none => { acts1 with replyTexts := m.config.replyTexts }
    { acts2 with
      replyDelayMin := m.config.replyDelayMin
      replyDelayMax := m.config.replyDelayMax
      replyMode := m.config.replyMode }
  else base

/-- The forward burst `_execute_merged_actions` performs (lines 568-571):
every accumulated target except the message's own chat id. -/
def forwardedTargets (acts : ActionRecord) (chatId : Int) : Finset Int :=
  acts.forwardTargets.filter (fun tid => tid ≠ chatId)

/-- One call of `_execute_merged_actions`: the action record it executes
and the (sorted-position) indices of the matched monitors whose quota
bookkeeping it performs. -/
structure Execution where
  acts : ActionRecord
  matchedIdxs : List Nat
  deriving DecidableEq

/-- The candidate loop of `_process_monitors_with_individual_modes`
(lines 409-455) over the priority-sorted candidates, accumulating the
pending merge set, and flushing it after the loop.  Returns the list of
`_execute_merged_actions` calls, in order.  A monitor result other than
`MATCHED` (including `ERROR`, which the per-monitor `try/except`
produces instead of propagating) contributes nothing and the loop
continues. -/
def dispatchGo (ev : MessageEvent) (acct : Account) :
    List (Nat × Monitor) → List Nat → ActionRecord → List Execution
  | [], mergeIdxs, mergeActs =>
    if mergeIdxs = [] then [] else [⟨mergeActs, mergeIdxs⟩]
  | (i, m) :: rest, mergeIdxs, mergeActs =>
    if evalMonitor ev acct m = .matched then
      if m.config.executionMode = "first_match" then
        [⟨collectMonitorActions m, [i]⟩]
      else if m.config.executionMode = "all" then
        ⟨collectMonitorActions m, [i]⟩ :: dispatchGo ev acct rest mergeIdxs mergeActs
      else
        dispatchGo ev acct rest (mergeIdxs ++ [i]) (mergeMonitorActions m mergeActs)
    else
      dispatchGo ev acct rest mergeIdxs mergeActs

/-- Stable insertion into a priority-ascending list: the new element goes
after every element of equal or lower priority already present. -/
def insertByPriority (m : Monitor) : List Monitor → List Monitor
  | [] => [m]
  | y :: ys =>
    if m.config.priority ≤ y.config.priority then m :: y :: ys
    else y :: insertByPriority m ys

/-- `monitors_list.sort(key=lambda x: x[0])` of `process_message`
(lines 380-387): a stable ascending sort on `priority` (Python's `sort`
is stable; ties keep registration order). -/
def sortByPriority : List Monitor → List Monitor
  | [] => []
  | m :: ms => insertByPriority m (sortByPriority ms)

/-- `MonitorEngine.process_message`: sort the account's monitors by
priority (stably) and run the per-mode candidate loop. -/
def dispatch (ev : MessageEvent) (acct : Account) (ms : List Monitor) : List Execution :=
  dispatchGo ev acct (sortByPriority ms).enum [] emptyMergeActions

/-- The quota bookkeeping of the dispatch: a monitor's config is updated by
`incrementAndMaybePause` exactly when it appears in an execution's matched
set (lines 684-699 run once per matched monitor per execution). -/
def updateMonitors (execs : List Execution) (ms : List (Nat × Monitor)) :
    List (Nat × Monitor) :=
  ms.map (fun p =>
    if execs.any (fun e => e.matchedIdxs.contains p.1) then
      (p.1, { p.2 with config := incrementAndMaybePause p.2.config })
    else p)

/-! ## Dedup cache and message-event entry point -/

/-- The engine's `processed_messages` cache: the members of the Python
`set`, carried as a duplicate-free list (the list order is only a
carrier; set semantics are membership-based). -/
structure EngineState where
  processed : List String
  deriving DecidableEq

/-- `_mark_message_processed` (lines 870-876): add the id, then once the
cache holds more than 10000 entries evict `list(set)[:5000]`.  A Python
`set` enumerates its members in an unspecified, hash-dependent order, so
the embedding takes the enumeration as a parameter: `setOrder l` is the
sequence `list(s)` produced for the cache whose members are `l` — any
permutation of the members is a faithful instance, and nothing guarantees
that the just-added id is outside the evicted 5000-element front.  After
the eviction the members are the remainder of that enumeration. -/
def markProcessed (setOrder : List String → List String)
    (st : EngineState) (uid : String) : EngineState :=
  let l := if st.processed.contains uid then st.processed else st.processed ++ [uid]
  if l.length > 10000 then ⟨(setOrder l).drop 5000⟩ else ⟨l⟩

/-- `MonitorEngine.process_message_event` (lines 816-852): skip inactive
accounts, skip already-processed dedup identities (`_is_message_processed`,
lines 839-849) before any monitor runs, otherwise mark the identity and
dispatch.  `setOrder` is the set-enumeration parameter of
`markProcessed`.  Returns the new cache state and the executions
performed. -/
def processMessageEvent (setOrder : List String → List String)
    (acct : Account) (ms : List Monitor)
    (st : EngineState) (ev : MessageEvent) : EngineState × List Execution :=
  if acct.monitorActive = false then (st, [])
  else if st.processed.contains ev.uniqueId then (st, [])
  else (markProcessed setOrder st ev.uniqueId, dispatch ev acct ms)

/-! ## Scheduled message subsystem (`_execute_scheduled_message`,
`src/core/monitor_engine.py` lines 982-1141) -/

/-- One record of `self.scheduled_messages`, with the keys
`_execute_scheduled_message` reads (the dict is built in
`add_scheduled_message` / loaded from disk). -/
structure ScheduledJob where
  jobId : String
  accountId : Option String
  targetId : Option Int
  message : String
  maxExecutions : Option Int
  executionCount : Int
  active : Bool
  useAi : Bool
  aiPrompt : Option String
  deriving DecidableEq, Repr

/-- Outcome of the AI capability for one firing: the service is not
configured, the call raised, or it returned a string. -/
inductive AiOutcome where
  | notConfigured
  | failed
  | response (s : String)
  deriving DecidableEq, Repr

/-- Result of one scheduled firing: the (possibly updated) record list and
the message actually sent, if any. -/
structure SchedResult where
  jobs : List ScheduledJob
  sent : Option (Int × String)
  deriving DecidableEq, Repr

/-- In-place mutation of the first record with the given job id (the
source mutates the dict object found by the lookup loop). -/
def updateFirstJob (f : ScheduledJob → ScheduledJob) (jid : String) :
    List ScheduledJob → List ScheduledJob
  | [] => []
  | j :: rest => if j.jobId = jid then f j :: rest else j :: updateFirstJob f jid rest

/-- The body-resolution step of `_execute_scheduled_message`
(lines 1025-1067): when the record asks for an AI body and has a truthy
prompt, a not-configured service, a raise, or a blank response abort the
firing (`none`); a usable response is stripped; otherwise the configured
message text is used. -/
def scheduledBody (cfg : ScheduledJob) (ai : AiOutcome) : Option String :=
  if cfg.useAi = true ∧ truthyStr cfg.aiPrompt = true then
    match ai with
    | .notConfigured => none
    | .failed => none
    | .response s => if pyStripStr s ≠ "" then some (pyStripStr s) else none
  else some cfg.message

/-- `MonitorEngine._execute_scheduled_message`.  The guards, in source
order: record lookup; `active` flag; quota gate (`if max_executions and
execution_count >= max_executions`, Python truthiness so a quota of 0 or
`None` never gates); config completeness (`if not account_id or not
target_id`); account lookup; optional AI body generation (not-configured,
a raise, or a blank response each abort the firing before any counter is
touched); blank-body gate; entity resolution; send.  Only after a
successful send is the counter incremented, and if the new count reaches
a truthy quota the record is flagged inactive (the scheduler job is
paused or removed, but the record itself stays in the list). -/
def executeScheduledMessage (jobs : List ScheduledJob) (jobId : String)
    (ai : AiOutcome) (accountConnected entityOk sendOk : Bool) : SchedResult :=
  match jobs.find? (fun j => j.jobId = jobId) with
  | none => ⟨jobs, none⟩
  | some cfg =>
    if cfg.active = false then ⟨jobs, none⟩
    else if truthyInt cfg.maxExecutions = true ∧
        cfg.executionCount ≥ cfg.maxExecutions.getD 0 then ⟨jobs, none⟩
    else if ¬ (truthyStr cfg.accountId = true ∧ truthyInt cfg.targetId = true) then
      ⟨jobs, none⟩
    else if accountConnected = false then ⟨jobs, none⟩
    else
      match scheduledBody cfg ai with
      | none => ⟨jobs, none⟩
      | some text =>
        if text = "" ∨ pyStripStr text = "" then ⟨jobs, none⟩
        else if entityOk = false then ⟨jobs, none⟩
        else if sendOk = false then ⟨jobs, none⟩
        else
          let target := cfg.targetId.getD 0
          let newCount := cfg.executionCount + 1
          let jobs1 := updateFirstJob (fun j => { j with executionCount := newCount }) jobId jobs
          if truthyInt cfg.maxExecutions = true ∧ newCount ≥ cfg.maxExecutions.getD 0 then
            ⟨updateFirstJob (fun j => { j with active := false }) jobId jobs1, some (target, text)⟩
          else ⟨jobs1, some (target, text)⟩

/-! ## Derived views and concrete instances used by witnesses -/

/-- The reply-related fields of an action record: enabled flag, text pool,
delay bounds, reply mode, content source and AI prompt. -/
def replyView (a : ActionRecord) :
    Bool × List String × Rat × Rat × ReplyMode × ReplyContentType × String :=
  (a.replyEnabled, a.replyTexts, a.replyDelayMin, a.replyDelayMax,
   a.replyMode, a.replyContentType, a.aiReplyPrompt)

/-- A sample account (the monitoring user is id 999). -/
def sampleAcct : Account := ⟨"acc1", some 999, true⟩

/-- A sample non-self, non-bot sender. -/
def sampleSender : MessageSender := ⟨42, some "bob", some "Bob", none, false⟩

/-- A sample text message in chat 100. -/
def sampleMsg : TelegramMessage :=
  ⟨1, 100, sampleSender, "please send the invoice".data, none⟩

/-- The sample message wrapped as an event for account `acc1`. -/
def sampleEv : MessageEvent := ⟨"acc1", sampleMsg⟩

/-- A regex engine whose compilation always fails. -/
def sampleOracle : RegexOracle := ⟨fun _ => none⟩

/-- A first-match keyword-like monitor: priority 1, forwards to 200. -/
def sampleFirstMatchMon : Monitor :=
  ⟨{ chats := [100], autoForward := true, forwardTargets := [200],
     priority := 1, executionMode := "first_match" }, fun _ => .ok true, none⟩

/-- A merge-mode monitor: priority 1, forwards to 200, requests a reply
from the pool `["hello"]`. -/
def sampleMergeMonA : Monitor :=
  ⟨{ chats := [100], autoForward := true, forwardTargets := [200],
     priority := 1, executionMode := "merge", replyEnabled := true,
     replyTexts := ["hello"], replyDelayMax := 5 }, fun _ => .ok true, none⟩

/-- A merge-mode monitor: priority 2, forwards to 100 and 300, requests a
reply from the pool `["other"]`. -/
def sampleMergeMonB : Monitor :=
  ⟨{ chats := [100], autoForward := true, forwardTargets := [100, 300],
     priority := 2, executionMode := "merge", replyEnabled := true,
     replyTexts := ["other"] }, fun _ => .ok true, none⟩

/-- A monitor that never matches (inactive). -/
def sampleInactiveMon : Monitor :=
  ⟨{ chats := [100], active := false, priority := 0 }, fun _ => .ok true, none⟩

/-- A monitor whose match condition raises. -/
def sampleErrorMon : Monitor :=
  ⟨{ chats := [100], priority := 0 }, fun _ => .error (), none⟩

/-- A sample scheduled job: AI body, quota of 1, not yet fired. -/
def sampleJob : ScheduledJob :=
  ⟨"j1", some "acc1", some 5, "x", some 1, 0, true, true, some "p"⟩

/-- A dedup cache holding exactly 10000 identities (`x0` … `x9999`), one
short of the eviction bound — marking one more id overflows it. -/
def bigCache : List String :=
  (List.range 10000).map (fun i => ⟨'x' :: (toString i).data⟩)

/-! ## Helper lemmas -/

/-- Characterization of the quota iteration below its limit: as long as
fewer than `n` matched executions have been booked, only the counter has
moved. -/
lemma quotaIter_eq (cfg : MonitorConfig) (n : ℕ)
    (hmax : cfg.maxExecutions = some (n : ℤ)) (hcount : cfg.executionCount = 0) :
    ∀ k : ℕ, k < n →
      incrementAndMaybePause^[k] cfg = { cfg with executionCount := (k : ℤ) } := by
  intro k
  induction k with
  | zero =>
    intro _
    cases cfg
    simp_all
  | succ k ih =>
    intro hk
    have hk' : k < n := Nat.lt_of_succ_lt hk
    rw [Function.iterate_succ_apply', ih hk']
    have hlt : ¬ ((k : ℤ) + 1 ≥ (n : ℤ)) := by
      omega
    simp [incrementAndMaybePause, MonitorConfig.isExecutionLimitReached, hmax, hlt]

/-! ## The claims -/

/-- C5: `BaseMonitor.process_message` applies its checks in this fixed
order: paused monitors yield NoMatch before anything else; then a failing
rule filter yields NoMatch; then a block-list hit yields Blocked; then an
exhausted quota yields LimitReached; only when all four gates pass is the
variant-specific match predicate consulted (each earlier conjunct holds
for every `cond`, so the predicate is not consulted there). -/
theorem claim_C5_evaluate_order (cfg : MonitorConfig) (cond : Except Unit Bool)
    (ev : MessageEvent) (acct : Account) :
    (cfg.active = false → processMessage cfg cond ev acct = .noMatch) ∧
    (cfg.active = true → shouldProcess cfg ev.message acct = .ok false →
      processMessage cfg cond ev acct = .noMatch) ∧
    (cfg.active = true → shouldProcess cfg ev.message acct = .ok true →
      isBlocked cfg ev.message = true → processMessage cfg cond ev acct = .blocked) ∧
    (cfg.active = true → shouldProcess cfg ev.message acct = .ok true →
      isBlocked cfg ev.message = false → cfg.isExecutionLimitReached = true →
      processMessage cfg cond ev acct = .limitReached) ∧
    (cfg.active = true → shouldProcess cfg ev.message acct = .ok true →
      isBlocked cfg ev.message = false → cfg.isExecutionLimitReached = false →
      processMessage cfg cond ev acct =
        (match cond with
         | .ok true => .matched
         | .ok false => .noMatch
         | .error _ => .error)) := by
  refine ⟨fun h => by simp [processMessage, h], ?_, ?_, ?_, ?_⟩
  · intro h1 h2
    simp [processMessage, h1, h2]
  · intro h1 h2 h3
    simp [processMessage, h1, h2, h3]
  · intro h1 h2 h3 h4
    simp [processMessage, h1, h2, h3, h4]
  · intro h1 h2 h3 h4
    cases cond with
    | error e => simp [processMessage, h1, h2, h3, h4]
    | ok b => cases b <;> simp [processMessage, h1, h2, h3, h4]

/-- C5 witness: on the sample message all four gates pass and a true
match condition yields Matched. -/
theorem claim_C5_evaluate_order_witness :
    processMessage { chats := [100] } (.ok true) sampleEv sampleAcct = .matched :=
  (claim_C5_evaluate_order { chats := [100] } (.ok true) sampleEv sampleAcct).2.2.2.2
    rfl rfl rfl rfl

/-- C9 counterexample: with match kind `exact` and keyword `"hi"`, the
message text `"hi "` (trailing blank) is matched by the code (the text is
lower-cased *and stripped*), while the claim's wording — lower-cased text
equal to the lower-cased keyword — says it does not match. -/
theorem claim_C9_counterexample :
    keywordMatchCondition sampleOracle ⟨"hi".data, .exact⟩ "hi ".data = true ∧
    claimedKeywordMatch sampleOracle ⟨"hi".data, .exact⟩ "hi ".data = false := by
  constructor <;> rfl

/-- C9 as amended: empty text never matches; exact kind matches iff the
lower-cased *and whitespace-stripped* text equals the lower-cased keyword;
partial kind matches iff the lower-cased keyword is a substring of the
lower-cased stripped text; regex kind matches iff the compiled pattern's
search succeeds on the raw text, a compilation/matching failure giving
no-match (the predicate is a total function — nothing propagates). -/
theorem claim_C9_keyword_match_amended (oracle : RegexOracle)
    (kcfg : KeywordConfig) (msgText : List Char) :
    keywordMatchCondition oracle kcfg msgText = amendedKeywordMatch oracle kcfg msgText := by
  by_cases h : msgText = []
  · subst h
    cases kcfg.matchType <;> simp [keywordMatchCondition, amendedKeywordMatch]
  · cases hmt : kcfg.matchType <;>
      simp [keywordMatchCondition, amendedKeywordMatch, textLower, h, hmt]

/-- C1 counterexample: a monitor with `max_executions = 1` that has fired
its one matched execution does *not* evaluate to LimitReached afterwards:
the pause already flipped `active` to false and reset the counter, so the
active gate (which precedes the quota gate) yields NoMatch. -/
theorem claim_C1_counterexample :
    processMessage (incrementAndMaybePause { maxExecutions := some 1 })
      (.ok true) sampleEv sampleAcct = .noMatch ∧
    MonitorResult.noMatch ≠ MonitorResult.limitReached := by
  exact ⟨rfl, by decide⟩

/-- C1 as amended: for `max_executions = N ≥ 1`, starting from a fresh
active monitor, each of the first `N-1` matched executions just advances
the counter (monitor still active), the invariant
`0 ≤ execution_count ≤ N` holds throughout, and the `N`-th matched
execution resets the counter to 0 and flips `active` to false — after
which the monitor stops matching, evaluating to NoMatch for every
message (not LimitReached: the active gate comes first and the counter
was reset). -/
theorem claim_C1_quota_amended (cfg : MonitorConfig) (n : ℕ)
    (hmax : cfg.maxExecutions = some (n : ℤ)) (hn : 1 ≤ n)
    (hcount : cfg.executionCount = 0) (hactive : cfg.active = true) :
    (∀ k : ℕ, k < n →
      (incrementAndMaybePause^[k] cfg).executionCount = (k : ℤ) ∧
      (incrementAndMaybePause^[k] cfg).active = true) ∧
    (∀ k : ℕ, k ≤ n →
      0 ≤ (incrementAndMaybePause^[k] cfg).executionCount ∧
      (incrementAndMaybePause^[k] cfg).executionCount ≤ (n : ℤ)) ∧
    (incrementAndMaybePause^[n] cfg).executionCount = 0 ∧
    (incrementAndMaybePause^[n] cfg).active = false ∧
    (∀ cond ev acct,
      processMessage (incrementAndMaybePause^[n] cfg) cond ev acct = .noMatch) := by
  have hiter := quotaIter_eq cfg n hmax hcount
  have hlast : incrementAndMaybePause^[n] cfg =
      { cfg with executionCount := 0, active := false } := by
    have hsplit : n = (n - 1) + 1 := by omega
    rw [hsplit, Function.iterate_succ_apply', hiter _ (by omega)]
    have hge : ((n - 1 : ℕ) : ℤ) + 1 ≥ (n : ℤ) := by
      omega
    simp [incrementAndMaybePause, MonitorConfig.isExecutionLimitReached, hmax, hge]
  refine ⟨?_, ?_, ?_, ?_, ?_⟩
  · intro k hk
    rw [hiter k hk]
    exact ⟨rfl, hactive⟩
  · intro k hk
    rcases Nat.lt_or_ge k n with hlt | hge
    · rw [hiter k hlt]
      constructor
      · show (0 : ℤ) ≤ (k : ℤ)
        omega
      · show (k : ℤ) ≤ (n : ℤ)
        omega
    · have hkn : k = n := le_antisymm hk hge
      rw [hkn, hlast]
      constructor
      · show (0 : ℤ) ≤ (0 : ℤ)
        omega
      · show (0 : ℤ) ≤ (n : ℤ)
        omega
  · rw [hlast]
  · rw [hlast]
  · intro cond ev acct
    simp [processMessage, hlast]

/-- C1 witness: a fresh monitor with quota 1, after its single matched
execution, has counter 0 and is paused. -/
theorem claim_C1_quota_amended_witness :
    (incrementAndMaybePause^[1] ({ maxExecutions := some 1 } : MonitorConfig)).executionCount = 0 ∧
    (incrementAndMaybePause^[1] ({ maxExecutions := some 1 } : MonitorConfig)).active = false :=
  ⟨(claim_C1_quota_amended { maxExecutions := some 1 } 1 rfl (by decide) rfl rfl).2.2.1,
   (claim_C1_quota_amended { maxExecutions := some 1 } 1 rfl (by decide) rfl rfl).2.2.2.1⟩

/-- Candidates that do not evaluate to Matched contribute nothing to the
dispatch loop. -/
lemma dispatchGo_append_unmatched (ev : MessageEvent) (acct : Account) :
    ∀ (l rest : List (Nat × Monitor)),
      (∀ p ∈ l, evalMonitor ev acct p.2 ≠ .matched) →
      ∀ (mi : List Nat) (ma : ActionRecord),
        dispatchGo ev acct (l ++ rest) mi ma = dispatchGo ev acct rest mi ma := by
  intro l
  induction l with
  | nil => intro rest _ mi ma; rfl
  | cons p l ih =>
    intro rest h mi ma
    have hp : evalMonitor ev acct p.2 ≠ .matched := h p (List.mem_cons_self p l)
    cases p with
    | mk i m =>
      simp only [List.cons_append, dispatchGo, hp, if_neg]
      exact ih rest (fun q hq => h q (List.mem_cons_of_mem _ hq)) mi ma

/-- C2: when the first matching candidate in priority order has
`first_match` execution mode, the dispatch executes exactly that monitor's
own action set, the candidates after it are never evaluated (the trace is
the same whatever they are), and every later monitor's config — in
particular its `execution_count` — is untouched by the bookkeeping. -/
theorem claim_C2_first_match (ev : MessageEvent) (acct : Account)
    (pre : List (Nat × Monitor)) (iA : Nat) (A : Monitor) (post : List (Nat × Monitor))
    (hpre : ∀ p ∈ pre, evalMonitor ev acct p.2 ≠ .matched)
    (hA : evalMonitor ev acct A = .matched)
    (hmode : A.config.executionMode = "first_match") :
    dispatchGo ev acct (pre ++ (iA, A) :: post) [] emptyMergeActions =
      [⟨collectMonitorActions A, [iA]⟩] ∧
    (∀ post2, dispatchGo ev acct (pre ++ (iA, A) :: post2) [] emptyMergeActions =
      [⟨collectMonitorActions A, [iA]⟩]) ∧
    (∀ iB B, (iB, B) ∈ post → iB ≠ iA →
      (iB, B) ∈ updateMonitors
        (dispatchGo ev acct (pre ++ (iA, A) :: post) [] emptyMergeActions)
        (pre ++ (iA, A) :: post)) := by
  have key : ∀ post2, dispatchGo ev acct (pre ++ (iA, A) :: post2) [] emptyMergeActions =
      [⟨collectMonitorActions A, [iA]⟩] := by
    intro post2
    rw [dispatchGo_append_unmatched ev acct pre _ hpre]
    simp [dispatchGo, hA, hmode]
  refine ⟨key post, key, ?_⟩
  intro iB B hmem hne
  rw [key post]
  refine List.mem_map.mpr ⟨(iB, B), ?_, ?_⟩
  · exact List.mem_append_right _ (List.mem_cons_of_mem _ hmem)
  · simp [hne]

/-- C2 witness: with an inactive monitor first, a priority-1 first-match
monitor and a priority-2 merge monitor behind it, only the first-match
monitor's action set runs and the later monitor's entry is unchanged. -/
theorem claim_C2_first_match_witness :
    dispatchGo sampleEv sampleAcct
        ([(0, sampleInactiveMon)] ++ (1, sampleFirstMatchMon) :: [(2, sampleMergeMonB)])
        [] emptyMergeActions =
      [⟨collectMonitorActions sampleFirstMatchMon, [1]⟩] ∧
    (2, sampleMergeMonB) ∈ updateMonitors
      (dispatchGo sampleEv sampleAcct
        ([(0, sampleInactiveMon)] ++ (1, sampleFirstMatchMon) :: [(2, sampleMergeMonB)])
        [] emptyMergeActions)
      ([(0, sampleInactiveMon)] ++ (1, sampleFirstMatchMon) :: [(2, sampleMergeMonB)]) := by
  have h := claim_C2_first_match sampleEv sampleAcct
    [(0, sampleInactiveMon)] 1 sampleFirstMatchMon [(2, sampleMergeMonB)]
    (by
      intro p hp
      simp only [List.mem_singleton] at hp
      subst hp
      decide)
    rfl rfl
  exact ⟨h.1, h.2.2 2 sampleMergeMonB (List.mem_singleton.mpr rfl) (by omega)⟩

/-- C8: an exception inside a monitor's variant predicate is caught within
that monitor's evaluation and surfaces as the Error result (first
conjunct); for the dispatch loop an Error-result candidate contributes
nothing and every remaining candidate is still processed — the trace is
exactly the one obtained with the faulty monitor absent, and the loop (a
total function) propagates no exception (second conjunct). -/
theorem claim_C8_error_isolated (ev : MessageEvent) (acct : Account) :
    (∀ (cfg : MonitorConfig) (e : Unit), cfg.active = true →
      shouldProcess cfg ev.message acct = .ok true →
      isBlocked cfg ev.message = false → cfg.isExecutionLimitReached = false →
      processMessage cfg (.error e) ev acct = .error) ∧
    (∀ (pre : List (Nat × Monitor)) (i : Nat) (m : Monitor)
      (post : List (Nat × Monitor)) (mi : List Nat) (ma : ActionRecord),
      evalMonitor ev acct m = .error →
      dispatchGo ev acct (pre ++ (i, m) :: post) mi ma =
        dispatchGo ev acct (pre ++ post) mi ma) := by
  constructor
  · intro cfg e h1 h2 h3 h4
    simp [processMessage, h1, h2, h3, h4]
  · intro pre
    induction pre with
    | nil =>
      intro i m post mi ma herr
      have hm : evalMonitor ev acct m ≠ .matched := by
        simp [herr]
      simp [dispatchGo, hm]
    | cons p pre ih =>
      intro i m post mi ma herr
      cases p with
      | mk j q =>
        by_cases hq : evalMonitor ev acct q = .matched
        · by_cases h1 : q.config.executionMode = "first_match"
          · simp only [List.cons_append, dispatchGo, hq, if_pos, h1, if_true]
          · by_cases h2 : q.config.executionMode = "all"
            · simp only [List.cons_append, dispatchGo, hq, h1, h2]
              simp [ih i m post mi ma herr]
            · simp only [List.cons_append, dispatchGo, hq, h1, h2]
              simp [ih i m post (mi ++ [j]) (mergeMonitorActions q ma) herr]
        · simp only [List.cons_append, dispatchGo, hq]
          simp [hq, ih i m post mi ma herr]

/-- C8 witness: a monitor whose predicate raises evaluates to Error, and
dispatching with it present equals dispatching with it absent. -/
theorem claim_C8_error_isolated_witness :
    processMessage sampleErrorMon.config (.error ()) sampleEv sampleAcct = .error ∧
    dispatchGo sampleEv sampleAcct ([] ++ (0, sampleErrorMon) :: [(1, sampleMergeMonA)])
        [] emptyMergeActions =
      dispatchGo sampleEv sampleAcct ([] ++ [(1, sampleMergeMonA)]) [] emptyMergeActions :=
  ⟨(claim_C8_error_isolated sampleEv sampleAcct).1 sampleErrorMon.config () rfl rfl rfl rfl,
   (claim_C8_error_isolated sampleEv sampleAcct).2 [] 0 sampleErrorMon
     [(1, sampleMergeMonA)] [] emptyMergeActions rfl⟩

/-- The email block leaves the forward-target set alone. -/
lemma forwardTargets_mergeEmailBlock (m : Monitor) (a : ActionRecord) :
    (mergeEmailBlock m a).forwardTargets = a.forwardTargets := by
  unfold mergeEmailBlock
  split <;> rfl

/-- The log block leaves the forward-target set alone. -/
lemma forwardTargets_mergeLogBlock (m : Monitor) (a : ActionRecord) :
    (mergeLogBlock m a).forwardTargets = a.forwardTargets := by
  unfold mergeLogBlock
  split <;> rfl

/-- The reply block leaves the forward-target set alone. -/
lemma forwardTargets_mergeReplyBlock (m : Monitor) (a : ActionRecord) :
    (mergeReplyBlock m a).forwardTargets = a.forwardTargets := by
  unfold mergeReplyBlock
  split
  · cases m.dynamicReply with
    | none => rfl
    | some dyn =>
      by_cases h1 : dyn ≠ []
      · simp [h1]
      · by_cases h2 : m.config.replyTexts = [] ∧ m.config.aiReplyPrompt ≠ ""
        · simp [h1, h2]
        · simp [h1, h2]
  · rfl

/-- The forward block unions in this monitor's targets exactly when its
`auto_forward` is on and its target list non-empty. -/
lemma forwardTargets_mergeForwardBlock (m : Monitor) (a : ActionRecord) :
    (mergeForwardBlock m a).forwardTargets =
      (if m.config.autoForward = true ∧ m.config.forwardTargets ≠ [] then
        a.forwardTargets ∪ m.config.forwardTargets.toFinset
      else a.forwardTargets) := by
  unfold mergeForwardBlock
  split
  · split <;> simp_all
  · simp_all

/-- The forward-target set of one `_merge_monitor_actions` step. -/
lemma forwardTargets_mergeMonitorActions (m : Monitor) (a : ActionRecord) :
    (mergeMonitorActions m a).forwardTargets =
      (if m.config.autoForward = true ∧ m.config.forwardTargets ≠ [] then
        a.forwardTargets ∪ m.config.forwardTargets.toFinset
      else a.forwardTargets) := by
  unfold mergeMonitorActions
  rw [forwardTargets_mergeReplyBlock, forwardTargets_mergeLogBlock,
    forwardTargets_mergeForwardBlock, forwardTargets_mergeEmailBlock]

/-- Membership in the forward-target set accumulated by folding
`_merge_monitor_actions` over a monitor list. -/
lemma mem_foldl_merge_forwardTargets (t : Int) :
    ∀ (L : List (Nat × Monitor)) (a : ActionRecord),
      (t ∈ (L.foldl (fun acc p => mergeMonitorActions p.2 acc) a).forwardTargets ↔
        t ∈ a.forwardTargets ∨
          ∃ p ∈ L, p.2.config.autoForward = true ∧ t ∈ p.2.config.forwardTargets) := by
  intro L
  induction L with
  | nil => simp
  | cons p L ih =>
    intro a
    simp only [List.foldl_cons]
    rw [ih]
    by_cases hc : p.2.config.autoForward = true ∧ p.2.config.forwardTargets ≠ []
    · simp only [forwardTargets_mergeMonitorActions, if_pos hc, Finset.mem_union,
        List.mem_toFinset, List.mem_cons]
      constructor
      · rintro (⟨hm | hm⟩ | ⟨q, hq, hq2⟩)
        · exact Or.inl hm
        · exact Or.inr ⟨p, Or.inl rfl, hc.1, hm⟩
        · exact Or.inr ⟨q, Or.inr hq, hq2⟩
      · rintro (hm | ⟨q, hq | hq, hq2⟩)
        · exact Or.inl (Or.inl hm)
        · subst hq
          exact Or.inl (Or.inr hq2.2)
        · exact Or.inr ⟨q, hq, hq2⟩
    · simp only [forwardTargets_mergeMonitorActions, if_neg hc, List.mem_cons]
      constructor
      · rintro (hm | ⟨q, hq, hq2⟩)
        · exact Or.inl hm
        · exact Or.inr ⟨q, Or.inr hq, hq2⟩
      · rintro (hm | ⟨q, hq | hq, hq2⟩)
        · exact Or.inl hm
        · rw [hq] at hq2
          rcases Decidable.not_and_iff_or_not.mp hc with h | h
          · exact absurd hq2.1 h
          · have hnil : p.2.config.forwardTargets = [] := by
              by_contra hne
              exact h hne
            rw [hnil] at hq2
            exact absurd hq2.2 (List.not_mem_nil t)
        · exact Or.inr ⟨q, hq, hq2⟩

/-- When every matched candidate is a merge-mode monitor, the loop merely
folds their actions into the pending record and flushes it once at the
end. -/
lemma dispatchGo_all_merge (ev : MessageEvent) (acct : Account) :
    ∀ (l : List (Nat × Monitor)) (mi : List Nat) (ma : ActionRecord),
      (∀ p ∈ l, evalMonitor ev acct p.2 = .matched →
        p.2.config.executionMode = "merge") →
      dispatchGo ev acct l mi ma =
        (if mi ++ (l.filter (fun p => evalMonitor ev acct p.2 = .matched)).map Prod.fst
            = [] then []
         else
          [⟨(l.filter (fun p => evalMonitor ev acct p.2 = .matched)).foldl
              (fun acc p => mergeMonitorActions p.2 acc) ma,
            mi ++ (l.filter (fun p => evalMonitor ev acct p.2 = .matched)).map
              Prod.fst⟩]) := by
  intro l
  induction l with
  | nil =>
    intro mi ma _
    simp [dispatchGo]
  | cons p l ih =>
    intro mi ma h
    cases p with
    | mk i m =>
      by_cases hm : evalMonitor ev acct m = .matched
      · have hmode := h (i, m) (List.mem_cons_self _ _) hm
        have h1 : ¬ (m.config.executionMode = "first_match") := by
          rw [hmode]
          decide
        have h2 : ¬ (m.config.executionMode = "all") := by
          rw [hmode]
          decide
        have hrec := ih (mi ++ [i]) (mergeMonitorActions m ma)
          (fun q hq hq2 => h q (List.mem_cons_of_mem _ hq) hq2)
        simp only [dispatchGo, hm, if_pos, h1, if_neg, h2, if_false, hrec,
          List.filter_cons, List.map_cons, decide_eq_true_eq]
        simp [hm, List.append_assoc]
      · have hrec := ih mi ma (fun q hq hq2 => h q (List.mem_cons_of_mem _ hq) hq2)
        simp only [dispatchGo, hm, if_false, hrec, List.filter_cons]
        simp [hm]

/-- C3: in merge mode the dispatch performs exactly one combined
execution, and a target receives the forward burst iff it lies in some
matched monitor's (forward-enabled) target list and is not the message's
own chat — i.e. the burst's target set is the deduplicated union of the
matched monitors' forward targets minus the origin chat. -/
theorem claim_C3_merge_forward (ev : MessageEvent) (acct : Account)
    (cands : List (Nat × Monitor))
    (hmerge : ∀ p ∈ cands, evalMonitor ev acct p.2 = .matched →
      p.2.config.executionMode = "merge")
    (hne : cands.filter (fun p => evalMonitor ev acct p.2 = .matched) ≠ []) :
    (dispatchGo ev acct cands [] emptyMergeActions).length = 1 ∧
    (∀ e ∈ dispatchGo ev acct cands [] emptyMergeActions, ∀ t : Int,
      t ∈ forwardedTargets e.acts ev.message.chatId ↔
        ((∃ p ∈ cands, evalMonitor ev acct p.2 = .matched ∧
          p.2.config.autoForward = true ∧ t ∈ p.2.config.forwardTargets) ∧
         t ≠ ev.message.chatId)) := by
  rw [dispatchGo_all_merge ev acct cands [] emptyMergeActions hmerge]
  have hcond : ¬ (([] : List Nat) ++
      (cands.filter (fun p => evalMonitor ev acct p.2 = .matched)).map Prod.fst = []) := by
    simpa using hne
  rw [if_neg hcond]
  refine ⟨rfl, ?_⟩
  intro e he t
  simp only [List.mem_singleton] at he
  subst he
  rw [forwardedTargets, Finset.mem_filter, mem_foldl_merge_forwardTargets]
  simp only [emptyMergeActions, Finset.not_mem_empty, false_or, List.mem_filter,
    decide_eq_true_eq]
  constructor
  · rintro ⟨⟨q, ⟨hq1, hq2⟩, hq3, hq4⟩, hchat⟩
    exact ⟨⟨q, hq1, hq2, hq3, hq4⟩, hchat⟩
  · rintro ⟨⟨q, hq1, hq2, hq3, hq4⟩, hchat⟩
    exact ⟨⟨q, ⟨hq1, hq2⟩, hq3, hq4⟩, hchat⟩

/-- C3 witness: two matched merge monitors forwarding to 200 and to
100/300 from chat 100 produce a single combined execution, and target 300
is in the burst while the origin chat 100 is not. -/
theorem claim_C3_merge_forward_witness :
    (dispatchGo sampleEv sampleAcct [(0, sampleMergeMonA), (1, sampleMergeMonB)]
      [] emptyMergeActions).length = 1 := by
  have h := claim_C3_merge_forward sampleEv sampleAcct
    [(0, sampleMergeMonA), (1, sampleMergeMonB)]
    (by
      intro p hp hm
      simp only [List.mem_cons, List.not_mem_nil, or_false] at hp
      rcases hp with hp | hp <;> (subst hp; rfl))
    (by
      intro hcontra
      have hlen := congrArg List.length hcontra
      simp only [List.length_nil] at hlen
      rw [show (List.filter
          (fun p => decide (evalMonitor sampleEv sampleAcct p.2 = .matched))
          [(0, sampleMergeMonA), (1, sampleMergeMonB)]).length = 2 from rfl] at hlen
      exact absurd hlen (by decide))
  exact h.1

/-- The email block leaves every reply field alone. -/
lemma replyView_mergeEmailBlock (m : Monitor) (a : ActionRecord) :
    replyView (mergeEmailBlock m a) = replyView a := by
  unfold mergeEmailBlock
  split <;> rfl

/-- The forward block leaves every reply field alone. -/
lemma replyView_mergeForwardBlock (m : Monitor) (a : ActionRecord) :
    replyView (mergeForwardBlock m a) = replyView a := by
  unfold mergeForwardBlock
  split
  · split <;> rfl
  · rfl

/-- The log block leaves every reply field alone. -/
lemma replyView_mergeLogBlock (m : Monitor) (a : ActionRecord) :
    replyView (mergeLogBlock m a) = replyView a := by
  unfold mergeLogBlock
  split <;> rfl

/-- A monitor that does not request a reply never enters the reply block. -/
lemma mergeReplyBlock_not_requesting (m : Monitor) (a : ActionRecord)
    (h : m.config.replyEnabled = false) : mergeReplyBlock m a = a := by
  unfold mergeReplyBlock
  simp [h]

/-- Once the combined reply is decided, the reply block never runs again. -/
lemma mergeReplyBlock_locked (m : Monitor) (a : ActionRecord)
    (h : a.replyEnabled = true) : mergeReplyBlock m a = a := by
  unfold mergeReplyBlock
  simp [h]

/-- The enabled flag after one merge step is the OR with this monitor's
request. -/
lemma mergeReplyBlock_replyEnabled (m : Monitor) (a : ActionRecord) :
    (mergeReplyBlock m a).replyEnabled = (a.replyEnabled || m.config.replyEnabled) := by
  cases ha : a.replyEnabled with
  | true => simp [mergeReplyBlock_locked m a ha, ha]
  | false =>
    cases hm : m.config.replyEnabled with
    | false => simp [mergeReplyBlock_not_requesting m a hm, ha, hm]
    | true =>
      unfold mergeReplyBlock
      rw [if_pos ⟨ha, hm⟩]
      cases m.dynamicReply with
      | none => rfl
      | some dyn =>
        by_cases h1 : dyn ≠ []
        · simp [h1]
        · by_cases h2 : m.config.replyTexts = [] ∧ m.config.aiReplyPrompt ≠ ""
          · simp [h1, h2]
          · simp [h1, h2]

/-- The enabled flag after one full `_merge_monitor_actions` step. -/
lemma mergeMonitorActions_replyEnabled (m : Monitor) (a : ActionRecord) :
    (mergeMonitorActions m a).replyEnabled = (a.replyEnabled || m.config.replyEnabled) := by
  unfold mergeMonitorActions
  rw [mergeReplyBlock_replyEnabled]
  have h1 := congrArg (fun t => t.1) (replyView_mergeLogBlock m (mergeForwardBlock m (mergeEmailBlock m a)))
  have h2 := congrArg (fun t => t.1) (replyView_mergeForwardBlock m (mergeEmailBlock m a))
  have h3 := congrArg (fun t => t.1) (replyView_mergeEmailBlock m a)
  simp only [replyView] at h1 h2 h3
  rw [h1, h2, h3]

/-- The reply view of a merge step depends on the accumulator only through
its own reply view. -/
lemma replyView_mergeReplyBlock_congr (m : Monitor) (a b : ActionRecord)
    (h : replyView a = replyView b) :
    replyView (mergeReplyBlock m a) = replyView (mergeReplyBlock m b) := by
  have h0 : a.replyEnabled = b.replyEnabled := congrArg (fun t => t.1) h
  have h1 : a.replyTexts = b.replyTexts := congrArg (fun t => t.2.1) h
  unfold mergeReplyBlock
  by_cases hg : a.replyEnabled = false ∧ m.config.replyEnabled = true
  · rw [if_pos hg, if_pos (by rw [← h0]; exact hg)]
    cases m.dynamicReply with
    | none => simp [replyView]
    | some dyn =>
      by_cases hd : dyn ≠ []
      · simp [hd, replyView]
      · by_cases hf : m.config.replyTexts = [] ∧ m.config.aiReplyPrompt ≠ ""
        · simp [hd, hf, replyView, h1]
        · simp [hd, hf, replyView]
  · rw [if_neg hg, if_neg (by rw [← h0]; exact hg)]
    exact h

/-- The reply view of a full merge step depends on the accumulator only
through its reply view. -/
lemma replyView_mergeMonitorActions_congr (m : Monitor) (a b : ActionRecord)
    (h : replyView a = replyView b) :
    replyView (mergeMonitorActions m a) = replyView (mergeMonitorActions m b) := by
  unfold mergeMonitorActions
  apply replyView_mergeReplyBlock_congr
  rw [replyView_mergeLogBlock, replyView_mergeForwardBlock, replyView_mergeEmailBlock,
    replyView_mergeLogBlock, replyView_mergeForwardBlock, replyView_mergeEmailBlock]
  exact h

/-- A non-requesting monitor leaves the combined reply view alone. -/
lemma replyView_mergeMonitorActions_nonreq (m : Monitor) (a : ActionRecord)
    (h : m.config.replyEnabled = false) :
    replyView (mergeMonitorActions m a) = replyView a := by
  unfold mergeMonitorActions
  rw [mergeReplyBlock_not_requesting _ _ h, replyView_mergeLogBlock,
    replyView_mergeForwardBlock, replyView_mergeEmailBlock]

/-- Once the reply is enabled, later merge steps leave the reply view
alone. -/
lemma replyView_mergeMonitorActions_locked (m : Monitor) (a : ActionRecord)
    (h : a.replyEnabled = true) :
    replyView (mergeMonitorActions m a) = replyView a := by
  unfold mergeMonitorActions
  have hen : (mergeLogBlock m (mergeForwardBlock m (mergeEmailBlock m a))).replyEnabled
      = a.replyEnabled := by
    have h1 := congrArg (fun t => t.1)
      (replyView_mergeLogBlock m (mergeForwardBlock m (mergeEmailBlock m a)))
    have h2 := congrArg (fun t => t.1) (replyView_mergeForwardBlock m (mergeEmailBlock m a))
    have h3 := congrArg (fun t => t.1) (replyView_mergeEmailBlock m a)
    simp only [replyView] at h1 h2 h3
    rw [h1, h2, h3]
  rw [mergeReplyBlock_locked _ _ (by rw [hen, h]), replyView_mergeLogBlock,
    replyView_mergeForwardBlock, replyView_mergeEmailBlock]

/-- Folding only non-requesting monitors leaves the reply view alone. -/
lemma foldl_merge_replyView_nonreq :
    ∀ (L : List (Nat × Monitor)) (a : ActionRecord),
      (∀ x ∈ L, x.2.config.replyEnabled = false) →
      replyView (L.foldl (fun acc p => mergeMonitorActions p.2 acc) a) = replyView a := by
  intro L
  induction L with
  | nil => intro a _; rfl
  | cons p L ih =>
    intro a h
    simp only [List.foldl_cons]
    rw [ih _ (fun x hx => h x (List.mem_cons_of_mem _ hx)),
      replyView_mergeMonitorActions_nonreq p.2 a (h p (List.mem_cons_self _ _))]

/-- Once the reply is enabled, folding further monitors leaves the reply
view alone. -/
lemma foldl_merge_replyView_locked :
    ∀ (L : List (Nat × Monitor)) (a : ActionRecord), a.replyEnabled = true →
      replyView (L.foldl (fun acc p => mergeMonitorActions p.2 acc) a) = replyView a := by
  intro L
  induction L with
  | nil => intro a _; rfl
  | cons p L ih =>
    intro a ha
    simp only [List.foldl_cons]
    rw [ih _ (by rw [mergeMonitorActions_replyEnabled, ha, Bool.true_or]),
      replyView_mergeMonitorActions_locked p.2 a ha]

/-- The combined enabled flag is the OR over the folded monitors. -/
lemma foldl_merge_replyEnabled :
    ∀ (L : List (Nat × Monitor)) (a : ActionRecord),
      (L.foldl (fun acc p => mergeMonitorActions p.2 acc) a).replyEnabled =
        (a.replyEnabled || L.any (fun p => p.2.config.replyEnabled)) := by
  intro L
  induction L with
  | nil => intro a; simp
  | cons p L ih =>
    intro a
    simp only [List.foldl_cons, List.any_cons]
    rw [ih, mergeMonitorActions_replyEnabled, Bool.or_assoc]

/-- C4: in merge mode the combined reply is enabled iff some matched
monitor requests one, and the reply view of the combined record — content
source, text pool, delay bounds, reply mode — is exactly the one
contributed by the *first* requesting monitor in priority order; matched
monitors after it never override it. -/
theorem claim_C4_merge_reply (ev : MessageEvent) (acct : Account)
    (cands : List (Nat × Monitor))
    (hmerge : ∀ p ∈ cands, evalMonitor ev acct p.2 = .matched →
      p.2.config.executionMode = "merge")
    (hne : cands.filter (fun p => evalMonitor ev acct p.2 = .matched) ≠ []) :
    ∀ e ∈ dispatchGo ev acct cands [] emptyMergeActions,
      (e.acts.replyEnabled =
        (cands.filter (fun p => evalMonitor ev acct p.2 = .matched)).any
          (fun p => p.2.config.replyEnabled)) ∧
      (∀ pre q post,
        cands.filter (fun p => evalMonitor ev acct p.2 = .matched) = pre ++ q :: post →
        (∀ x ∈ pre, x.2.config.replyEnabled = false) →
        q.2.config.replyEnabled = true →
        replyView e.acts = replyView (mergeMonitorActions q.2 emptyMergeActions)) := by
  rw [dispatchGo_all_merge ev acct cands [] emptyMergeActions hmerge]
  have hcond : ¬ (([] : List Nat) ++
      (cands.filter (fun p => evalMonitor ev acct p.2 = .matched)).map Prod.fst = []) := by
    simpa using hne
  rw [if_neg hcond]
  intro e he
  simp only [List.mem_singleton] at he
  subst he
  constructor
  · rw [foldl_merge_replyEnabled]
    rfl
  · intro pre q post hsplit hpre hq
    rw [hsplit, List.foldl_append, List.foldl_cons]
    have hbase : replyView (pre.foldl (fun acc p => mergeMonitorActions p.2 acc)
        emptyMergeActions) = replyView emptyMergeActions :=
      foldl_merge_replyView_nonreq pre emptyMergeActions hpre
    have hview : replyView (mergeMonitorActions q.2
        (pre.foldl (fun acc p => mergeMonitorActions p.2 acc) emptyMergeActions)) =
        replyView (mergeMonitorActions q.2 emptyMergeActions) :=
      replyView_mergeMonitorActions_congr q.2 _ _ hbase
    have hlocked : (mergeMonitorActions q.2
        (pre.foldl (fun acc p => mergeMonitorActions p.2 acc)
          emptyMergeActions)).replyEnabled = true := by
      rw [mergeMonitorActions_replyEnabled, hq, Bool.or_true]
    rw [foldl_merge_replyView_locked post _ hlocked, hview]

/-- C4 witness: two matched merge monitors both request replies, with text
pools `["hello"]` (priority 1) and `["other"]` (priority 2); the combined
record is reply-enabled and its reply view is the one contributed by the
priority-1 monitor. -/
theorem claim_C4_merge_reply_witness :
    (Execution.acts ⟨mergeMonitorActions sampleMergeMonB
        (mergeMonitorActions sampleMergeMonA emptyMergeActions), [0, 1]⟩).replyEnabled
      = true ∧
    replyView (Execution.acts ⟨mergeMonitorActions sampleMergeMonB
        (mergeMonitorActions sampleMergeMonA emptyMergeActions), [0, 1]⟩) =
      replyView (mergeMonitorActions sampleMergeMonA emptyMergeActions) := by
  have h := claim_C4_merge_reply sampleEv sampleAcct
    [(0, sampleMergeMonA), (1, sampleMergeMonB)]
    (by
      intro p hp hm
      simp only [List.mem_cons, List.not_mem_nil, or_false] at hp
      rcases hp with hp | hp <;> (subst hp; rfl))
    (by
      intro hcontra
      have hlen := congrArg List.length hcontra
      simp only [List.length_nil] at hlen
      rw [show (List.filter
          (fun p => decide (evalMonitor sampleEv sampleAcct p.2 = .matched))
          [(0, sampleMergeMonA), (1, sampleMergeMonB)]).length = 2 from rfl] at hlen
      exact absurd hlen (by decide))
    ⟨mergeMonitorActions sampleMergeMonB
      (mergeMonitorActions sampleMergeMonA emptyMergeActions), [0, 1]⟩
    (List.mem_singleton.mpr rfl)
  refine ⟨?_, h.2 [] (0, sampleMergeMonA) [(1, sampleMergeMonB)] rfl
    (by simp) rfl⟩
  rw [h.1]
  rfl

/-- Marking an unseen id keeps it in the cache whenever the mark does not
overflow the 10000 bound: without an eviction the id is simply appended,
for every set-enumeration order. -/
lemma markProcessed_mem (setOrder : List String → List String)
    (st : EngineState) (uid : String)
    (h : uid ∉ st.processed) (hlen : st.processed.length ≤ 9999) :
    uid ∈ (markProcessed setOrder st uid).processed := by
  have hc : st.processed.contains uid = false := by
    simp [h]
  unfold markProcessed
  rw [hc]
  simp only [Bool.false_eq_true, if_false]
  have hno : ¬ ((st.processed ++ [uid]).length > 10000) := by
    simp only [List.length_append, List.length_singleton]
    omega
  rw [if_neg hno]
  exact List.mem_append_right _ (List.mem_singleton.mpr rfl)

/-- Marking an unseen id on a cache already at 10000 or more entries
triggers the eviction: the new cache is the enumeration of the grown set
with its 5000-element front removed. -/
lemma markProcessed_overflow (setOrder : List String → List String)
    (st : EngineState) (uid : String)
    (h : uid ∉ st.processed) (hlen : st.processed.length ≥ 10000) :
    markProcessed setOrder st uid =
      ⟨(setOrder (st.processed ++ [uid])).drop 5000⟩ := by
  have hc : st.processed.contains uid = false := by
    simp [h]
  unfold markProcessed
  rw [hc]
  simp only [Bool.false_eq_true, if_false]
  rw [if_pos (by simp only [List.length_append, List.length_singleton]; omega)]

/-- The eviction-boundary scenario over an abstract cache content: if the
cache holds exactly 10000 identities other than the sample event's, the
first delivery's mark overflows the bound and the `list(set)[:5000]`
eviction — under an enumeration that lists the fresh identity first,
which no property of a Python set rules out — drops the identity just
marked, so the replayed identical event is dispatched again. -/
lemma dedup_boundary_replayed (l : List String)
    (h1 : sampleEv.uniqueId ∉ l) (h2 : l.length = 10000) :
    processMessageEvent List.reverse sampleAcct [sampleMergeMonA]
        (processMessageEvent List.reverse sampleAcct [sampleMergeMonA]
          ⟨l⟩ sampleEv).1 sampleEv ≠
      ((processMessageEvent List.reverse sampleAcct [sampleMergeMonA]
          ⟨l⟩ sampleEv).1, []) := by
  have hmark1 : markProcessed List.reverse ⟨l⟩ sampleEv.uniqueId =
      ⟨l.reverse.drop 4999⟩ := by
    rw [markProcessed_overflow List.reverse ⟨l⟩ sampleEv.uniqueId h1
      (by show l.length ≥ 10000; omega)]
    rw [List.reverse_append]
    simp only [List.reverse_cons, List.reverse_nil, List.nil_append,
      List.singleton_append]
    rw [show (5000 : ℕ) = 4999 + 1 from rfl, List.drop_succ_cons]
  have hfirst : processMessageEvent List.reverse sampleAcct [sampleMergeMonA]
      ⟨l⟩ sampleEv =
      (⟨l.reverse.drop 4999⟩, dispatch sampleEv sampleAcct [sampleMergeMonA]) := by
    unfold processMessageEvent
    rw [if_neg (by decide), if_neg (by simp [h1]), hmark1]
  have hfst : (processMessageEvent List.reverse sampleAcct [sampleMergeMonA]
      ⟨l⟩ sampleEv).1 = ⟨l.reverse.drop 4999⟩ := by
    rw [hfirst]
  have hnotin1 : sampleEv.uniqueId ∉ l.reverse.drop 4999 := by
    intro h
    exact h1 (List.mem_reverse.mp (List.drop_subset _ _ h))
  have hsecond : processMessageEvent List.reverse sampleAcct [sampleMergeMonA]
      ⟨l.reverse.drop 4999⟩ sampleEv =
      (markProcessed List.reverse ⟨l.reverse.drop 4999⟩ sampleEv.uniqueId,
        dispatch sampleEv sampleAcct [sampleMergeMonA]) := by
    unfold processMessageEvent
    rw [if_neg (by decide), if_neg (by simp [hnotin1])]
  rw [hfst, hsecond]
  intro heq
  exact absurd (congrArg Prod.snd heq)
    (by decide : ¬ (dispatch sampleEv sampleAcct [sampleMergeMonA] = []))

/-- C6 counterexample: at the eviction boundary the claim fails.  With the
cache holding 10000 other identities, marking the sample event's identity
overflows the bound and the eviction (under a set-enumeration order that
happens to list the fresh identity first) evicts the identity just
marked, so replaying the identical event is processed again: the second
delivery dispatches and its result differs from the no-op `(state, [])`
the claim demands. -/
theorem claim_C6_counterexample :
    processMessageEvent List.reverse sampleAcct [sampleMergeMonA]
        (processMessageEvent List.reverse sampleAcct [sampleMergeMonA]
          ⟨bigCache⟩ sampleEv).1 sampleEv ≠
      ((processMessageEvent List.reverse sampleAcct [sampleMergeMonA]
          ⟨bigCache⟩ sampleEv).1, []) := by
  apply dedup_boundary_replayed
  · simp only [bigCache]
    rw [show sampleEv.uniqueId = "acc1_100_1" from rfl]
    intro h
    rcases List.mem_map.mp h with ⟨i, _, hi⟩
    have hdata := congrArg String.data hi
    rw [show ("acc1_100_1" : String).data =
        ['a', 'c', 'c', '1', '_', '1', '0', '0', '_', '1'] from rfl] at hdata
    injection hdata with hhead _
    exact absurd hhead (by decide)
  · simp only [bigCache, List.length_map, List.length_range]

/-- C6 as amended: replaying the identical dedup identity
`(account_id, chat_id, message_id)` produces no dispatch — no monitor
consulted (independent of the monitor list), nothing executed, cache
unchanged — provided the identity is still cached when the replay
arrives: either it was already cached before the first delivery, or the
cache held at most 9999 identities then, so that marking it did not
overflow the 10000 bound and trigger the eviction.  This holds for every
set-enumeration order.  (When the mark does overflow, `list(set)[:5000]`
may contain the fresh identity and the replay is processed again — the
accepted coarse-eviction failure mode.) -/
theorem claim_C6_dedup_amended (setOrder : List String → List String)
    (acct : Account) (ms1 ms2 : List Monitor) (st : EngineState)
    (e1 e2 : MessageEvent)
    (hacc : e2.accountId = e1.accountId)
    (hchat : e2.message.chatId = e1.message.chatId)
    (hmsg : e2.message.messageId = e1.message.messageId)
    (hsmall : st.processed.length ≤ 9999 ∨ e1.uniqueId ∈ st.processed) :
    processMessageEvent setOrder acct ms2
        (processMessageEvent setOrder acct ms1 st e1).1 e2 =
      ((processMessageEvent setOrder acct ms1 st e1).1, []) := by
  have huid : e2.uniqueId = e1.uniqueId := by
    unfold MessageEvent.uniqueId
    rw [hacc, hchat, hmsg]
  by_cases hact : acct.monitorActive = false
  · simp [processMessageEvent, hact]
  · have hact2 : acct.monitorActive = true := by
      revert hact
      cases acct.monitorActive <;> simp
    by_cases hcont : e1.uniqueId ∈ st.processed
    · simp [processMessageEvent, hact2, hcont, huid]
    · have hlen : st.processed.length ≤ 9999 := by
        rcases hsmall with h | h
        · exact h
        · exact absurd h hcont
      have hmark := markProcessed_mem setOrder st e1.uniqueId hcont hlen
      simp [processMessageEvent, hact2, hcont, huid, hmark]

/-- C6 witness: on an empty cache (well under the bound), replaying the
sample event immediately after its first delivery changes nothing and
executes nothing. -/
theorem claim_C6_dedup_amended_witness :
    processMessageEvent (fun l => l) sampleAcct [sampleMergeMonA]
        (processMessageEvent (fun l => l) sampleAcct [sampleMergeMonA]
          ⟨[]⟩ sampleEv).1 sampleEv =
      ((processMessageEvent (fun l => l) sampleAcct [sampleMergeMonA]
          ⟨[]⟩ sampleEv).1, []) :=
  claim_C6_dedup_amended (fun l => l) sampleAcct [sampleMergeMonA] [sampleMergeMonA]
    ⟨[]⟩ sampleEv sampleEv rfl rfl rfl (Or.inl (by decide))

/-- `updateFirstJob` preserves the record-list length: pausing never
removes a record. -/
lemma length_updateFirstJob (f : ScheduledJob → ScheduledJob) (jid : String) :
    ∀ l : List ScheduledJob, (updateFirstJob f jid l).length = l.length := by
  intro l
  induction l with
  | nil => rfl
  | cons j rest ih =>
    unfold updateFirstJob
    split
    · simp
    · simp [ih]

/-- Looking up the job id after an in-place update of the first matching
record returns the updated record. -/
lemma find_updateFirstJob (f : ScheduledJob → ScheduledJob) (jid : String)
    (hf : ∀ j, (f j).jobId = j.jobId) :
    ∀ l : List ScheduledJob,
      (updateFirstJob f jid l).find? (fun j => j.jobId = jid) =
        (l.find? (fun j => j.jobId = jid)).map f := by
  intro l
  induction l with
  | nil => rfl
  | cons j rest ih =>
    by_cases h : j.jobId = jid
    · unfold updateFirstJob
      rw [if_pos h]
      rw [List.find?_cons_of_pos _ (by simp [hf, h]),
        List.find?_cons_of_pos _ (by simp [h])]
      rfl
    · unfold updateFirstJob
      rw [if_neg h]
      rw [List.find?_cons_of_neg _ (by simp [hf, h]),
        List.find?_cons_of_neg _ (by simp [h])]
      exact ih

/-- C7: for a live scheduled job with AI-generated body and a positive
quota that is not yet met, an AI failure — service not configured, a
raise, or a blank response — aborts the firing with the record list
completely unchanged (no quota consumed, nothing sent); a successful send
increments the execution count by one, and when the new count meets the
quota the job is paused (`active := false`) while remaining in the record
list (same length, still found under its id). -/
theorem claim_C7_scheduled (jobs : List ScheduledJob) (jid : String)
    (cfg : ScheduledJob) (m : Int)
    (hfind : jobs.find? (fun j => j.jobId = jid) = some cfg)
    (hactive : cfg.active = true)
    (hmax : cfg.maxExecutions = some m) (hm : 1 ≤ m)
    (hcount : cfg.executionCount < m)
    (hai : cfg.useAi = true) (hprompt : truthyStr cfg.aiPrompt = true)
    (hacc : truthyStr cfg.accountId = true) (htgt : truthyInt cfg.targetId = true) :
    (∀ conn ent snd,
      executeScheduledMessage jobs jid .failed conn ent snd = ⟨jobs, none⟩) ∧
    (∀ conn ent snd,
      executeScheduledMessage jobs jid .notConfigured conn ent snd = ⟨jobs, none⟩) ∧
    (∀ conn ent snd s, pyStripStr s = "" →
      executeScheduledMessage jobs jid (.response s) conn ent snd = ⟨jobs, none⟩) ∧
    (∀ s : String, pyStripStr s = s → s ≠ "" →
      (executeScheduledMessage jobs jid (.response s) true true true).sent =
        some (cfg.targetId.getD 0, s) ∧
      (executeScheduledMessage jobs jid (.response s) true true true).jobs.length =
        jobs.length ∧
      (executeScheduledMessage jobs jid (.response s) true true true).jobs.find?
          (fun j => j.jobId = jid) =
        some { cfg with executionCount := cfg.executionCount + 1,
                        active := decide (cfg.executionCount + 1 < m) }) := by
  have hgate : ¬ (truthyInt cfg.maxExecutions = true ∧
      cfg.executionCount ≥ cfg.maxExecutions.getD 0) := by
    rw [hmax]
    simp only [Option.getD_some]
    intro hcontra
    omega
  have hok : ¬ ¬ (truthyStr cfg.accountId = true ∧ truthyInt cfg.targetId = true) :=
    not_not.mpr ⟨hacc, htgt⟩
  have hneA : ¬ (cfg.active = false) := by
    simp [hactive]
  have hguard : cfg.useAi = true ∧ truthyStr cfg.aiPrompt = true := ⟨hai, hprompt⟩
  have hmain : ∀ (ai : AiOutcome) (conn ent snd : Bool),
      executeScheduledMessage jobs jid ai conn ent snd =
        (if conn = false then (⟨jobs, none⟩ : SchedResult)
         else
          match scheduledBody cfg ai with
          | none => ⟨jobs, none⟩
          | some text =>
            if text = "" ∨ pyStripStr text = "" then ⟨jobs, none⟩
            else if ent = false then ⟨jobs, none⟩
            else if snd = false then ⟨jobs, none⟩
            else
              let target := cfg.targetId.getD 0
              let newCount := cfg.executionCount + 1
              let jobs1 := updateFirstJob (fun j => { j with executionCount := newCount })
                jid jobs
              if truthyInt cfg.maxExecutions = true ∧
                  newCount ≥ cfg.maxExecutions.getD 0 then
                ⟨updateFirstJob (fun j => { j with active := false }) jid jobs1,
                  some (target, text)⟩
              else ⟨jobs1, some (target, text)⟩) := by
    intro ai conn ent snd
    unfold executeScheduledMessage
    simp only [hfind]
    rw [if_neg hneA, if_neg hgate, if_neg hok]
  refine ⟨?_, ?_, ?_, ?_⟩
  · intro conn ent snd
    rw [hmain .failed conn ent snd]
    have hb : scheduledBody cfg .failed = none := by
      unfold scheduledBody
      rw [if_pos hguard]
    by_cases hconn : conn = false
    · rw [if_pos hconn]
    · rw [if_neg hconn, hb]
  · intro conn ent snd
    rw [hmain .notConfigured conn ent snd]
    have hb : scheduledBody cfg .notConfigured = none := by
      unfold scheduledBody
      rw [if_pos hguard]
    by_cases hconn : conn = false
    · rw [if_pos hconn]
    · rw [if_neg hconn, hb]
  · intro conn ent snd s hs
    rw [hmain (.response s) conn ent snd]
    have hb : scheduledBody cfg (.response s) = none := by
      unfold scheduledBody
      rw [if_pos hguard]
      simp [hs]
    by_cases hconn : conn = false
    · rw [if_pos hconn]
    · rw [if_neg hconn, hb]
  · intro s hs hsne
    have hb2 : scheduledBody cfg (.response s) = some s := by
      unfold scheduledBody
      rw [if_pos hguard]
      show (if pyStripStr s ≠ "" then some (pyStripStr s) else none) = some s
      rw [hs, if_pos hsne]
    have hneText : ¬ (s = "" ∨ pyStripStr s = "") := by
      rw [hs]
      simp [hsne]
    have hres : executeScheduledMessage jobs jid (.response s) true true true =
        (if truthyInt cfg.maxExecutions = true ∧
            cfg.executionCount + 1 ≥ cfg.maxExecutions.getD 0 then
          (⟨updateFirstJob (fun j => { j with active := false }) jid
              (updateFirstJob
                (fun j => { j with executionCount := cfg.executionCount + 1 }) jid jobs),
            some (cfg.targetId.getD 0, s)⟩ : SchedResult)
         else
          ⟨updateFirstJob (fun j => { j with executionCount := cfg.executionCount + 1 })
              jid jobs,
            some (cfg.targetId.getD 0, s)⟩) := by
      rw [hmain (.response s) true true true]
      rw [if_neg (show ¬ (true = false) by simp)]
      simp only [hb2]
      rw [if_neg hneText]
      rw [if_neg (show ¬ (true = false) by simp), if_neg (show ¬ (true = false) by simp)]
    by_cases hq : cfg.executionCount + 1 ≥ m
    · have hcondT : truthyInt cfg.maxExecutions = true ∧
          cfg.executionCount + 1 ≥ cfg.maxExecutions.getD 0 := by
        rw [hmax]
        refine ⟨?_, by simpa using hq⟩
        simp only [truthyInt, decide_eq_true_eq]
        omega
      rw [hres, if_pos hcondT]
      refine ⟨rfl, ?_, ?_⟩
      · simp [length_updateFirstJob]
      · rw [find_updateFirstJob (fun j => { j with active := false }) jid (fun j => rfl),
          find_updateFirstJob
            (fun j => { j with executionCount := cfg.executionCount + 1 }) jid
            (fun j => rfl), hfind]
        have hdec : decide (cfg.executionCount + 1 < m) = false := by
          simp only [decide_eq_false_iff_not]
          omega
        rw [hdec]
        rfl
    · have hcondF : ¬ (truthyInt cfg.maxExecutions = true ∧
          cfg.executionCount + 1 ≥ cfg.maxExecutions.getD 0) := by
        rw [hmax]
        simp only [Option.getD_some]
        intro hcontra
        omega
      rw [hres, if_neg hcondF]
      refine ⟨rfl, ?_, ?_⟩
      · simp [length_updateFirstJob]
      · rw [find_updateFirstJob
            (fun j => { j with executionCount := cfg.executionCount + 1 }) jid
            (fun j => rfl), hfind]
        have hdec : decide (cfg.executionCount + 1 < m) = true := by
          simp only [decide_eq_true_eq]
          omega
        rw [hdec]
        cases cfg
        simp_all

/-- C7 witness: the sample AI job (quota 1, count 0) is unchanged by an AI
failure, and after one successful send with body "ok" it has count 1 and
is paused but still present. -/
theorem claim_C7_scheduled_witness :
    (∀ conn ent snd,
      executeScheduledMessage [sampleJob] "j1" .failed conn ent snd =
        ⟨[sampleJob], none⟩) ∧
    (executeScheduledMessage [sampleJob] "j1" (.response "ok") true true true).jobs.find?
        (fun j => j.jobId = "j1") =
      some { sampleJob with executionCount := 1, active := false } := by
  have h := claim_C7_scheduled [sampleJob] "j1" sampleJob 1 rfl rfl rfl
    (by decide) (by decide) rfl (by decide) (by decide) (by decide)
  refine ⟨h.1, ?_⟩
  have h4 := (h.2.2.2 "ok" (by decide) (by decide)).2.2
  rw [h4]
  rfl

/-- C10: in every execution mode — `first_match` and `all` execute through
the same `_execute_merged_actions` as `merge` — the forward burst of any
execution the dispatch produces never contains the message's own chat
id. -/
theorem claim_C10_no_self_forward (ev : MessageEvent) (acct : Account)
    (ms : List Monitor) (e : Execution) (_he : e ∈ dispatch ev acct ms) :
    ev.message.chatId ∉ forwardedTargets e.acts ev.message.chatId := by
  intro hmem
  rw [forwardedTargets, Finset.mem_filter] at hmem
  exact hmem.2 rfl

/-- C10 witness: the combined merge execution of the two sample monitors
(one of which lists the origin chat 100 as a forward target) does not
forward back to chat 100. -/
theorem claim_C10_no_self_forward_witness :
    sampleEv.message.chatId ∉
      forwardedTargets
        (Execution.acts ⟨mergeMonitorActions sampleMergeMonB
          (mergeMonitorActions sampleMergeMonA emptyMergeActions), [0, 1]⟩)
        sampleEv.message.chatId :=
  claim_C10_no_self_forward sampleEv sampleAcct [sampleMergeMonA, sampleMergeMonB]
    ⟨mergeMonitorActions sampleMergeMonB
      (mergeMonitorActions sampleMergeMonA emptyMergeActions), [0, 1]⟩
    (List.mem_singleton.mpr rfl)

end TgMonitor
